import Mathlib

/-!
Shallow embedding of the bot-deploy health monitor (src/index.js).

The source file contains two concatenated versions of the program; the
second one (with the failCount debounce, lastPingMs, and the persisted
status-message id) is the live program referenced by the spec.  The first
version's checkBot is embedded as checkBotFirst for the equivalence claim.

Timestamps and durations are modelled as Nat (JS Date.now() values).  The
JS expression (now - lastDeployAt >= RECHECK_AFTER_DEPLOY_MS) agrees with
the Nat-truncated subtraction used here on every branch outcome, since a
negative JS difference and a truncated-to-zero Nat difference both fall
below the window.
-/

namespace BotDeploy

/-- The five status strings assigned by the program. The code compares the
status field only against these five literals, and the final else branch of
checkBot is reached exactly when the status is the down literal, so an
enumerated type is a faithful model of the string-tagged field. -/
inductive Status where
  | unknown
  | up
  | down
  | deploying
  | adminClosed
deriving DecidableEq, Repr

/-- A Service Record as built by parseBotEnv in the second program version. -/
structure Bot where
  id : String
  name : String
  url : String
  deployUrl : String
  status : Status
  lastDeployAt : Nat
  lastCheckAt : Nat
  lastPingMs : Nat
  failCount : Nat
deriving DecidableEq, Repr

/-- A Service Record as built by parseBotEnv in the first program version
(no lastPingMs and no failCount fields). -/
structure Bot1 where
  id : String
  name : String
  url : String
  deployUrl : String
  status : Status
  lastDeployAt : Nat
  lastCheckAt : Nat
deriving DecidableEq, Repr

/-- Forget the two fields the first version's record lacks. -/
def eraseBot (b : Bot) : Bot1 :=
  { id := b.id, name := b.name, url := b.url, deployUrl := b.deployUrl,
    status := b.status, lastDeployAt := b.lastDeployAt, lastCheckAt := b.lastCheckAt }

/-- Outcome of one simpleRequest probe: the promise resolves with a status
code and a measured duration, or rejects (timeout, transport error, bad
URL all collapse to err). -/
inductive ProbeResult where
  | ok (statusCode : Nat) (duration : Nat)
  | err
deriving DecidableEq, Repr

def CHECK_EVERY_MS : Nat := 60 * 1000

def RECHECK_AFTER_DEPLOY_MS : Nat := 10 * 60 * 1000

/-- The isUp computation of checkBot: 200 <= statusCode < 400 on a resolved
probe, false on a rejected one. -/
def probeUp : ProbeResult → Bool
  | ProbeResult.ok code _ => 200 ≤ code && code < 400
  | ProbeResult.err => false

/-- checkBot of the second program version (src/index.js lines 550-592),
as a pure transition: given the record, the sweep timestamp and the probe
outcome, it returns the updated record together with the list of deploy
URLs against which remediation was invoked.  The JS assignment
lastPingMs = r.duration || 0 equals the duration itself over Nat. -/
def checkBot (bot : Bot) (now : Nat) (r : ProbeResult) : Bot × List String :=
  let b1 : Bot :=
    match r with
    | ProbeResult.ok _ d => { bot with lastCheckAt := now, lastPingMs := d }
    | ProbeResult.err => { bot with lastCheckAt := now, lastPingMs := 0 }
  if probeUp r then
    ({ b1 with status := Status.up, failCount := 0, lastDeployAt := 0 }, [])
  else if b1.status = Status.deploying then
    if RECHECK_AFTER_DEPLOY_MS ≤ now - b1.lastDeployAt then
      ({ b1 with status := Status.adminClosed }, [])
    else
      (b1, [])
  else if b1.status = Status.adminClosed then
    (b1, [])
  else
    let fc := b1.failCount + 1
    if fc < 2 then
      ({ b1 with failCount := fc, status := Status.down }, [])
    else
      ({ b1 with lastDeployAt := now, failCount := 0, status := Status.deploying },
        [b1.deployUrl])

/-- checkBot of the first program version (src/index.js lines 224-255):
no failure counting, remediation fires on the first failure out of
unknown or up, and the final else branch sends the record to down. -/
def checkBotFirst (bot : Bot1) (now : Nat) (r : ProbeResult) : Bot1 × List String :=
  let b1 : Bot1 := { bot with lastCheckAt := now }
  if probeUp r then
    ({ b1 with status := Status.up, lastDeployAt := 0 }, [])
  else if b1.status = Status.unknown ∨ b1.status = Status.up then
    ({ b1 with lastDeployAt := now, status := Status.deploying },
      [b1.deployUrl])
  else if b1.status = Status.deploying then
    if RECHECK_AFTER_DEPLOY_MS ≤ now - b1.lastDeployAt then
      ({ b1 with status := Status.adminClosed }, [])
    else
      (b1, [])
  else if b1.status = Status.adminClosed then
    (b1, [])
  else
    ({ b1 with status := Status.down }, [])

/-- The Service Record parseBotEnv builds for key envKey once the value
regex has produced the two URLs. -/
def initBot (envKey u d : String) : Bot :=
  { id := envKey, name := envKey, url := u, deployUrl := d,
    status := Status.unknown, lastDeployAt := 0, lastCheckAt := 0,
    lastPingMs := 0, failCount := 0 }

/-- Run checkBot over a list of (timestamp, probe outcome) steps. -/
def runChecks (b : Bot) : List (Nat × ProbeResult) → Bot
  | [] => b
  | s :: rest => runChecks (checkBot b s.1 s.2).1 rest

/-- Concrete record used by witnesses: fresh from configuration. -/
def botW : Bot := initBot "bot1" "http://one.test/" "http://one.test/deploy"

/-- Concrete record in state deploying with a remediation cycle started at 1. -/
def botDepW : Bot := { botW with status := Status.deploying, lastDeployAt := 1 }

/-- Concrete record in state adminClosed. -/
def botAdmW : Bot := { botW with status := Status.adminClosed, lastDeployAt := 2 }

/-- States reachable from a given record by Status Engine transitions.
Each step takes the sweep timestamp (a JS Date.now() value, hence
positive) and an arbitrary probe outcome. -/
inductive Reachable (b0 : Bot) : Bot → Prop where
  | refl : Reachable b0 b0
  | step (b : Bot) (now : Nat) (r : ProbeResult) :
      Reachable b0 b → 0 < now → Reachable b0 (checkBot b now r).1

/-- The invariant that actually holds of reachable records: a nonzero
lastDeployAt marks the states deploying and adminClosed. -/
def DeployInv (b : Bot) : Prop :=
  b.lastDeployAt ≠ 0 ↔ (b.status = Status.deploying ∨ b.status = Status.adminClosed)

/-- Concrete record in state up with no recorded failures. -/
def botUpW : Bot := { botW with status := Status.up }

/-- Outcome of one call to sendStatusMessage: the Discord request rejects,
or resolves with no usable id (res?.id || null gave null), or resolves
with a message id. -/
inductive SendRes where
  | throws
  | okNone
  | okId (i : String)
deriving DecidableEq, Repr

/-- Outcome of one call to editStatusMessage. -/
inductive EditRes where
  | throws
  | ok
deriving DecidableEq, Repr

/-- The behaviour of the Discord channel during one updateStatus call:
what the (at most one) send and the (at most one) edit would do. -/
structure Notifier where
  send1 : SendRes
  edit1 : EditRes
deriving DecidableEq, Repr

/-- The process-wide report state: the in-memory statusMessageId and the
content of the durable ./.statusMessageId file (savedId).  File writes are
modelled as succeeding; a write failure is swallowed by the code and
leaves the file as it was. -/
structure PubState where
  statusMessageId : Option String
  savedId : Option String
deriving DecidableEq, Repr

/-- updateStatus (src/index.js lines 519-538) as a function of the report
state and the channel behaviour.  It returns the new report state, or an
error when the call throws out of updateStatus, together with how many
send and edit requests were issued. -/
def updateStatus (ps : PubState) (nt : Notifier) :
    Except Unit PubState × Nat × Nat :=
  match ps.statusMessageId with
  | none =>
    match nt.send1 with
    | SendRes.throws => (Except.error (), 1, 0)
    | SendRes.okNone => (Except.ok ps, 1, 0)
    | SendRes.okId i =>
      (Except.ok { statusMessageId := some i, savedId := some i }, 1, 0)
  | some _ =>
    match nt.edit1 with
    | EditRes.ok => (Except.ok ps, 0, 1)
    | EditRes.throws =>
      match nt.send1 with
      | SendRes.throws => (Except.error (), 1, 1)
      | SendRes.okNone => (Except.ok ps, 1, 1)
      | SendRes.okId i =>
        (Except.ok { statusMessageId := some i, savedId := some i }, 1, 1)

/-- The whole mutable state the sweep touches: the re-entrancy flag, the
roster, the report state and the recorded sweep duration. -/
structure MonState where
  checking : Bool
  bots : List Bot
  pub : PubState
  lastLoopMs : Nat
deriving DecidableEq, Repr

/-- The for-loop of checkAll: run checkBot over the roster in order, one
probe outcome per record, collecting remediation calls. -/
def sweepBots : List Bot → List ProbeResult → Nat → List Bot × List String
  | [], _, _ => ([], [])
  | bs, [], _ => (bs, [])
  | b :: bs, r :: rs, now =>
    let res := checkBot b now r
    let rest := sweepBots bs rs now
    (res.1 :: rest.1, res.2 ++ rest.2)

/-- checkAll (src/index.js lines 594-613): a no-op when the checking flag
is set; otherwise it sets the flag, sweeps the roster, publishes, and only
then clears the flag and records the duration.  No handler guards the
await of updateStatus, so when the publish throws, the function aborts
with the flag still set and the duration not updated.  Returns the new
state with the send count, edit count and remediation calls. -/
def checkAll (st : MonState) (probes : List ProbeResult) (now : Nat)
    (nt : Notifier) (dur : Nat) : MonState × Nat × Nat × List String :=
  if st.checking then (st, 0, 0, [])
  else
    let swept := sweepBots st.bots probes now
    match updateStatus st.pub nt with
    | (Except.error _, s, e) =>
      ({ checking := true, bots := swept.1, pub := st.pub,
         lastLoopMs := st.lastLoopMs }, s, e, swept.2)
    | (Except.ok ps2, s, e) =>
      ({ checking := false, bots := swept.1, pub := ps2,
         lastLoopMs := dur }, s, e, swept.2)

/-- Whether this updateStatus call throws out of the publish. -/
def publishThrows (ps : PubState) (nt : Notifier) : Bool :=
  match (updateStatus ps nt).1 with
  | Except.error _ => true
  | Except.ok _ => false

/-- Concrete states and notifier behaviours for the sweep claims. -/
def pubNoneW : PubState := { statusMessageId := none, savedId := none }

def stIdleW : MonState :=
  { checking := false, bots := [], pub := pubNoneW, lastLoopMs := 0 }

def ntThrowW : Notifier := { send1 := SendRes.throws, edit1 := EditRes.throws }

def ntOkW : Notifier := { send1 := SendRes.okId "m1", edit1 := EditRes.ok }

/-- Characters used by the value regex; written by code point so that no
brace or quote appears inside a literal. -/
def braceL : Char := Char.ofNat 123

def braceR : Char := Char.ofNat 125

def quoteChar : Char := Char.ofNat 34

/-- JS regex whitespace class (the code points relevant to env values). -/
def isWs (c : Char) : Bool :=
  c = ' ' || c = Char.ofNat 9 || c = Char.ofNat 10 || c = Char.ofNat 11 ||
    c = Char.ofNat 12 || c = Char.ofNat 13 || c = Char.ofNat 160

/-- Greedy match of a leading whitespace run.  Every use site follows the
run with a character that is not itself whitespace, so the greedy match is
the only possible one. -/
def dropWs : List Char → List Char
  | [] => []
  | c :: cs => if isWs c then dropWs cs else c :: cs

/-- Matches the closing part of the value regex after the optional quote:
whitespace, right brace, whitespace, end of input. -/
def closeTail (cs : List Char) : Bool :=
  match dropWs cs with
  | c :: rest => c = braceR && (dropWs rest).isEmpty
  | [] => false

/-- Matches optional quote then the closing part.  When the input starts
with a quote the quote must be the optional one, since a quote can match
neither whitespace nor the brace. -/
def closeTailQ (cs : List Char) : Bool :=
  match cs with
  | c :: rest => if c = quoteChar then closeTail rest else closeTail (c :: rest)
  | [] => false

/-- Matches the protocol alternation at the head of a URL group, trying
the s branch first as the regex engine does, and returns the matched
characters together with the remainder. -/
def stripProto : List Char → Option (List Char × List Char)
  | 'h' :: 't' :: 't' :: 'p' :: 's' :: ':' :: '/' :: '/' :: r2 =>
    some (['h', 't', 't', 'p', 's', ':', '/', '/'], r2)
  | 'h' :: 't' :: 't' :: 'p' :: ':' :: '/' :: '/' :: r2 =>
    some (['h', 't', 't', 'p', ':', '/', '/'], r2)
  | _ => none

/-- Splits off the maximal run of non-quote characters. -/
def splitNonQuote : List Char → List Char × List Char
  | [] => ([], [])
  | c :: cs =>
    if c = quoteChar then ([], c :: cs)
    else
      let p := splitNonQuote cs
      (c :: p.1, p.2)

/-- Greedy backtracking for a one-or-more group body: given the reversed
maximal candidate body and the remainder, return the longest nonempty body
whose remainder satisfies the continuation, exactly as the regex engine
shrinks a greedy plus. -/
def shrinkBody (check : List Char → Bool) :
    List Char → List Char → Option (List Char × List Char)
  | [], _ => none
  | c :: rb, tail =>
    if check tail then some ((c :: rb).reverse, tail)
    else shrinkBody check rb (c :: tail)

/-- Matches the middle of the value regex between the two URL groups:
optional quote, whitespace, comma, whitespace; returns the remainder at
which the second group starts.  A quote at the head can only be the
optional one. -/
def midTail (cs : List Char) : Option (List Char) :=
  let cs2 :=
    match cs with
    | c :: rest => if c = quoteChar then rest else c :: rest
    | [] => []
  match dropWs cs2 with
  | c :: rest => if c = ',' then some (dropWs rest) else none
  | [] => none

/-- Matches the second URL group with its optional opening quote and the
closing part, returning the captured group. -/
def matchGroup2 (cs : List Char) : Option (List Char) :=
  let cs2 :=
    match cs with
    | c :: rest => if c = quoteChar then rest else c :: rest
    | [] => []
  match stripProto cs2 with
  | none => none
  | some pr =>
    let sp := splitNonQuote pr.2
    match shrinkBody closeTailQ sp.1.reverse sp.2 with
    | none => none
    | some bt => some (pr.1 ++ bt.1)

/-- Continuation used when shrinking the first URL group: the remainder
must carry the middle separator and then a full second group. -/
def checkMid (cs : List Char) : Bool :=
  match midTail cs with
  | some rest => (matchGroup2 rest).isSome
  | none => false

/-- The env value regex of parseBotEnv: whitespace, left brace, whitespace,
optional quote, first URL group, optional quote, whitespace, comma,
whitespace, optional quote, second URL group, optional quote, whitespace,
right brace, whitespace, end.  Returns the two captured URLs. -/
def matchBotValue (s : String) : Option (String × String) :=
  match dropWs s.data with
  | [] => none
  | c :: rest =>
    if c = braceL then
      let r1 := dropWs rest
      let r2 :=
        match r1 with
        | d :: rr => if d = quoteChar then rr else d :: rr
        | [] => []
      match stripProto r2 with
      | none => none
      | some pr =>
        let sp := splitNonQuote pr.2
        match shrinkBody checkMid sp.1.reverse sp.2 with
        | none => none
        | some bt =>
          match midTail bt.2 with
          | none => none
          | some g2start =>
            match matchGroup2 g2start with
            | none => none
            | some url2 => some ((pr.1 ++ bt.1).asString, url2.asString)
    else none

/-- The roster key regex of the startup loop: bot, then one or more
digits, case-insensitively. -/
def isBotKey (s : String) : Bool :=
  match s.data.map Char.toLower with
  | 'b' :: 'o' :: 't' :: rest => !rest.isEmpty && rest.all Char.isDigit
  | _ => false

/-- process.env[k], over an environment modelled as an association list in
object-key enumeration order. -/
def lookupEnv (env : List (String × String)) (k : String) : Option String :=
  match env.find? (fun kv => kv.1 == k) with
  | some kv => some kv.2
  | none => none

/-- parseBotEnv of the second program version (src/index.js lines
322-338): an absent or empty value is rejected (the JS falsy test), a
value not matching the regex is rejected, and otherwise the fresh Service
Record is built from the two captured URLs. -/
def parseBotEnv (env : List (String × String)) (envKey : String) : Option Bot :=
  match lookupEnv env envKey with
  | none => none
  | some raw =>
    if raw = "" then none
    else
      match matchBotValue raw with
      | none => none
      | some uv => some (initBot envKey uv.1 uv.2)

/-- The startup roster loop (src/index.js lines 340-346): fold over the
environment keys in enumeration order, keeping every key that matches the
bot pattern and parses. -/
def BOTS (env : List (String × String)) : List Bot :=
  env.foldl
    (fun acc kv =>
      if isBotKey kv.1 then
        match parseBotEnv env kv.1 with
        | some b => acc ++ [b]
        | none => acc
      else acc) []

lemma checkBot_adminClosed_absorb (bot : Bot) (now : Nat) (r : ProbeResult)
    (hst : bot.status = Status.adminClosed) (hf : probeUp r = false) :
    (checkBot bot now r).1.status = Status.adminClosed := by
  cases r with
  | ok code d => simp [checkBot, hf, hst]
  | err => simp [checkBot, probeUp, hst]

lemma runChecks_adminClosed (bot : Bot) (steps : List (Nat × ProbeResult))
    (hst : bot.status = Status.adminClosed)
    (hfail : ∀ p ∈ steps, probeUp p.2 = false) :
    (runChecks bot steps).status = Status.adminClosed := by
  induction steps generalizing bot with
  | nil => simpa [runChecks] using hst
  | cons s rest ih =>
    have h1 := checkBot_adminClosed_absorb bot s.1 s.2 hst (hfail s (by simp))
    exact ih _ h1 (fun p hp => hfail p (by simp [hp]))

/-- C1: a probe failure against a record in state unknown, up or down
increments failCount; while the incremented count stays below the
threshold of 2 the record goes to down, and otherwise the engine stamps
lastDeployAt with the sweep time, resets failCount to 0, moves to
deploying, and invokes remediation against deployUrl exactly once. -/
theorem checkBot_failure_debounce (bot : Bot) (now : Nat) (r : ProbeResult)
    (hst : bot.status = Status.unknown ∨ bot.status = Status.up ∨
      bot.status = Status.down)
    (hf : probeUp r = false) :
    (bot.failCount + 1 < 2 →
      (checkBot bot now r).1.failCount = bot.failCount + 1 ∧
      (checkBot bot now r).1.status = Status.down ∧
      (checkBot bot now r).2 = []) ∧
    (2 ≤ bot.failCount + 1 →
      (checkBot bot now r).1.lastDeployAt = now ∧
      (checkBot bot now r).1.failCount = 0 ∧
      (checkBot bot now r).1.status = Status.deploying ∧
      (checkBot bot now r).2 = [bot.deployUrl]) := by
  have hd : ¬ bot.status = Status.deploying := by
    rcases hst with h | h | h <;> simp [h]
  have ha : ¬ bot.status = Status.adminClosed := by
    rcases hst with h | h | h <;> simp [h]
  constructor
  · intro hlt
    cases r with
    | ok code d => simp [checkBot, hf, hd, ha, hlt]
    | err => simp [checkBot, probeUp, hd, ha, hlt]
  · intro hge
    have hnlt : ¬ (bot.failCount + 1 < 2) := by omega
    cases r with
    | ok code d => simp [checkBot, hf, hd, ha, hnlt]
    | err => simp [checkBot, probeUp, hd, ha, hnlt]

/-- C1 witness: a fresh unknown record, failing once, at the concrete
inputs of the theorem. -/
theorem checkBot_failure_debounce_witness :
    (botW.failCount + 1 < 2 →
      (checkBot botW 5 ProbeResult.err).1.failCount = botW.failCount + 1 ∧
      (checkBot botW 5 ProbeResult.err).1.status = Status.down ∧
      (checkBot botW 5 ProbeResult.err).2 = []) ∧
    (2 ≤ botW.failCount + 1 →
      (checkBot botW 5 ProbeResult.err).1.lastDeployAt = 5 ∧
      (checkBot botW 5 ProbeResult.err).1.failCount = 0 ∧
      (checkBot botW 5 ProbeResult.err).1.status = Status.deploying ∧
      (checkBot botW 5 ProbeResult.err).2 = [botW.deployUrl]) :=
  checkBot_failure_debounce botW 5 ProbeResult.err (Or.inl rfl) rfl

/-- C2: a failing probe against a deploying record keeps it deploying
while less than the 10-minute grace window has elapsed since
lastDeployAt, moves it to adminClosed once the window is reached, and an
adminClosed record stays adminClosed across any further sequence of
failing probes. -/
theorem checkBot_grace_window :
    (∀ (bot : Bot) (now : Nat) (r : ProbeResult),
      bot.status = Status.deploying → probeUp r = false →
        (now - bot.lastDeployAt < RECHECK_AFTER_DEPLOY_MS →
          (checkBot bot now r).1.status = Status.deploying) ∧
        (RECHECK_AFTER_DEPLOY_MS ≤ now - bot.lastDeployAt →
          (checkBot bot now r).1.status = Status.adminClosed)) ∧
    (∀ (bot : Bot) (steps : List (Nat × ProbeResult)),
      bot.status = Status.adminClosed →
      (∀ p ∈ steps, probeUp p.2 = false) →
      (runChecks bot steps).status = Status.adminClosed) := by
  constructor
  · intro bot now r hst hf
    constructor
    · intro hlt
      have hn : ¬ (RECHECK_AFTER_DEPLOY_MS ≤ now - bot.lastDeployAt) := by omega
      cases r with
      | ok code d => simp [checkBot, hf, hst, hn]
      | err => simp [checkBot, probeUp, hst, hn]
    · intro hge
      cases r with
      | ok code d => simp [checkBot, hf, hst, hge]
      | err => simp [checkBot, probeUp, hst, hge]
  · exact runChecks_adminClosed

/-- C2 witness: the window elapses at concrete inputs, and an adminClosed
record absorbs two further concrete failures. -/
theorem checkBot_grace_window_witness :
    (checkBot botDepW 700001 ProbeResult.err).1.status = Status.adminClosed ∧
    (runChecks botAdmW [(3, ProbeResult.err), (4, ProbeResult.err)]).status
      = Status.adminClosed := by
  constructor
  · exact (checkBot_grace_window.1 botDepW 700001 ProbeResult.err rfl rfl).2
      (by decide)
  · exact checkBot_grace_window.2 botAdmW [(3, ProbeResult.err), (4, ProbeResult.err)]
      rfl (by decide)

/-- C3: a successful probe (status code in [200, 400)) from any state sets
status to up, failCount to 0, lastDeployAt to 0, records the measured
latency, and triggers no remediation. -/
theorem checkBot_success_resets (bot : Bot) (now code d : Nat)
    (h1 : 200 ≤ code) (h2 : code < 400) :
    (checkBot bot now (ProbeResult.ok code d)).1.status = Status.up ∧
    (checkBot bot now (ProbeResult.ok code d)).1.failCount = 0 ∧
    (checkBot bot now (ProbeResult.ok code d)).1.lastDeployAt = 0 ∧
    (checkBot bot now (ProbeResult.ok code d)).1.lastPingMs = d ∧
    (checkBot bot now (ProbeResult.ok code d)).2 = [] := by
  have hup : probeUp (ProbeResult.ok code d) = true := by
    simp [probeUp]
    omega
  simp [checkBot, hup]

/-- C3 witness: a success received while adminClosed, at concrete inputs. -/
theorem checkBot_success_resets_witness :
    (checkBot botAdmW 9 (ProbeResult.ok 200 37)).1.status = Status.up ∧
    (checkBot botAdmW 9 (ProbeResult.ok 200 37)).1.failCount = 0 ∧
    (checkBot botAdmW 9 (ProbeResult.ok 200 37)).1.lastDeployAt = 0 ∧
    (checkBot botAdmW 9 (ProbeResult.ok 200 37)).1.lastPingMs = 37 ∧
    (checkBot botAdmW 9 (ProbeResult.ok 200 37)).2 = [] :=
  checkBot_success_resets botAdmW 9 200 37 (by decide) (by decide)

/-- C8 counterexample: a probe that reaches the service but returns a
non-success status code (500) still records its measured duration in
lastPingMs, while the claim requires lastPingMs to be zero after any
failed probe. -/
theorem lastPing_claim_cex :
    probeUp (ProbeResult.ok 500 42) = false ∧
    (checkBot botW 5 (ProbeResult.ok 500 42)).1.status = Status.down ∧
    (checkBot botW 5 (ProbeResult.ok 500 42)).1.lastPingMs = 42 := by
  decide

/-- C8 amended: after a transition, lastPingMs holds the measured duration
of the probe whenever the request received an HTTP response (any status
code), and is 0 when the probe failed at the transport level. -/
theorem checkBot_lastPing (bot : Bot) (now code d : Nat) :
    (checkBot bot now (ProbeResult.ok code d)).1.lastPingMs = d ∧
    (checkBot bot now ProbeResult.err).1.lastPingMs = 0 := by
  constructor
  · simp only [checkBot]
    repeat' split
    all_goals rfl
  · simp only [checkBot]
    repeat' split
    all_goals rfl

lemma checkBot_DeployInv (b : Bot) (now : Nat) (r : ProbeResult)
    (hpos : 0 < now) (h : DeployInv b) : DeployInv (checkBot b now r).1 := by
  unfold DeployInv at h ⊢
  by_cases hup : probeUp r = true
  · cases r with
    | ok code d => simp [checkBot, hup]
    | err => simp [probeUp] at hup
  · have hf : probeUp r = false := by simpa using hup
    cases hst : b.status with
    | deploying =>
      have hld : b.lastDeployAt ≠ 0 := h.mpr (Or.inl hst)
      by_cases hw : RECHECK_AFTER_DEPLOY_MS ≤ now - b.lastDeployAt
      · cases r with
        | ok code d => simp [checkBot, hf, hst, hw, hld]
        | err => simp [checkBot, probeUp, hst, hw, hld]
      · cases r with
        | ok code d => simp [checkBot, hf, hst, hw, hld]
        | err => simp [checkBot, probeUp, hst, hw, hld]
    | adminClosed =>
      have hld : b.lastDeployAt ≠ 0 := h.mpr (Or.inr hst)
      cases r with
      | ok code d => simp [checkBot, hf, hst, hld]
      | err => simp [checkBot, probeUp, hst, hld]
    | unknown =>
      have hld : b.lastDeployAt = 0 := by
        by_contra hc
        rcases h.mp hc with h1 | h1 <;> rw [hst] at h1 <;> exact absurd h1 (by simp)
      by_cases hfc : b.failCount + 1 < 2
      · cases r with
        | ok code d => simp [checkBot, hf, hst, hfc, hld]
        | err => simp [checkBot, probeUp, hst, hfc, hld]
      · cases r with
        | ok code d => simp [checkBot, hf, hst, hfc, hld]; omega
        | err => simp [checkBot, probeUp, hst, hfc, hld]; omega
    | up =>
      have hld : b.lastDeployAt = 0 := by
        by_contra hc
        rcases h.mp hc with h1 | h1 <;> rw [hst] at h1 <;> exact absurd h1 (by simp)
      by_cases hfc : b.failCount + 1 < 2
      · cases r with
        | ok code d => simp [checkBot, hf, hst, hfc, hld]
        | err => simp [checkBot, probeUp, hst, hfc, hld]
      · cases r with
        | ok code d => simp [checkBot, hf, hst, hfc, hld]; omega
        | err => simp [checkBot, probeUp, hst, hfc, hld]; omega
    | down =>
      have hld : b.lastDeployAt = 0 := by
        by_contra hc
        rcases h.mp hc with h1 | h1 <;> rw [hst] at h1 <;> exact absurd h1 (by simp)
      by_cases hfc : b.failCount + 1 < 2
      · cases r with
        | ok code d => simp [checkBot, hf, hst, hfc, hld]
        | err => simp [checkBot, probeUp, hst, hfc, hld]
      · cases r with
        | ok code d => simp [checkBot, hf, hst, hfc, hld]; omega
        | err => simp [checkBot, probeUp, hst, hfc, hld]; omega

/-- C4 counterexample: from a fresh record, two failures at times 1 and 2
enter deploying with lastDeployAt = 2, and a third failure once the grace
window has elapsed enters adminClosed while lastDeployAt stays 2, so a
reachable record has nonzero lastDeployAt with status distinct from
deploying. -/
theorem lastDeploy_invariant_cex :
    Reachable (initBot "bot1" "http://a" "http://b")
      (runChecks (initBot "bot1" "http://a" "http://b")
        [(1, ProbeResult.err), (2, ProbeResult.err), (600002, ProbeResult.err)]) ∧
    (runChecks (initBot "bot1" "http://a" "http://b")
      [(1, ProbeResult.err), (2, ProbeResult.err), (600002, ProbeResult.err)]).lastDeployAt = 2 ∧
    (runChecks (initBot "bot1" "http://a" "http://b")
      [(1, ProbeResult.err), (2, ProbeResult.err), (600002, ProbeResult.err)]).status
      = Status.adminClosed := by
  refine ⟨?_, by decide, by decide⟩
  show Reachable _
    (checkBot (checkBot (checkBot (initBot "bot1" "http://a" "http://b")
      1 ProbeResult.err).1 2 ProbeResult.err).1 600002 ProbeResult.err).1
  exact Reachable.step _ _ _
    (Reachable.step _ _ _
      (Reachable.step _ _ _ Reachable.refl (by decide)) (by decide)) (by decide)

/-- C4 amended: in every record reachable from the initial state by Status
Engine transitions, lastDeployAt is nonzero if and only if the status is
deploying or adminClosed. -/
theorem lastDeploy_invariant (envKey u d : String) (b : Bot)
    (h : Reachable (initBot envKey u d) b) :
    (b.lastDeployAt ≠ 0 ↔
      (b.status = Status.deploying ∨ b.status = Status.adminClosed)) := by
  have hinv : DeployInv b := by
    induction h with
    | refl => simp [DeployInv, initBot]
    | step b now r hr hpos ih => exact checkBot_DeployInv b now r hpos ih
  exact hinv

/-- C4 witness: the invariant at the initial record itself. -/
theorem lastDeploy_invariant_witness :
    ((initBot "bot1" "http://a" "http://b").lastDeployAt ≠ 0 ↔
      ((initBot "bot1" "http://a" "http://b").status = Status.deploying ∨
       (initBot "bot1" "http://a" "http://b").status = Status.adminClosed)) :=
  lastDeploy_invariant "bot1" "http://a" "http://b" _ Reachable.refl

/-- C10 counterexample: on a probe failure against an up record, the first
version remediates immediately and moves to deploying with
lastDeployAt = now, while the second version moves to down without
remediating, so the two checkBot definitions are not the same transition
function. -/
theorem checkBot_versions_cex :
    (checkBotFirst (eraseBot botUpW) 5 ProbeResult.err).1.status = Status.deploying ∧
    (checkBot botUpW 5 ProbeResult.err).1.status = Status.down ∧
    (checkBotFirst (eraseBot botUpW) 5 ProbeResult.err).1.lastDeployAt = 5 ∧
    (checkBot botUpW 5 ProbeResult.err).1.lastDeployAt = 0 ∧
    (checkBotFirst (eraseBot botUpW) 5 ProbeResult.err).2 = [botUpW.deployUrl] ∧
    (checkBot botUpW 5 ProbeResult.err).2 = [] := by
  decide

/-- C10 amended: the two checkBot versions agree on next status,
lastDeployAt and remediation exactly on probe successes and on failures
hitting a record whose status is deploying or adminClosed, or down with a
zero failCount; on a failure out of unknown or up (or out of down with a
positive failCount) they differ, the first version remediating
immediately where the second debounces. -/
theorem checkBot_versions_agree (b : Bot) (now : Nat) (r : ProbeResult)
    (h : probeUp r = true ∨ b.status = Status.deploying ∨
      b.status = Status.adminClosed ∨
      (b.status = Status.down ∧ b.failCount = 0)) :
    (checkBotFirst (eraseBot b) now r).1.status = (checkBot b now r).1.status ∧
    (checkBotFirst (eraseBot b) now r).1.lastDeployAt
      = (checkBot b now r).1.lastDeployAt ∧
    (checkBotFirst (eraseBot b) now r).2 = (checkBot b now r).2 := by
  by_cases hup : probeUp r = true
  · cases r with
    | ok code d => simp [checkBot, checkBotFirst, eraseBot, hup]
    | err => simp [probeUp] at hup
  · have hf : probeUp r = false := by simpa using hup
    rcases h with h | hst | hst | ⟨hst, hfc⟩
    · exact absurd h hup
    · by_cases hw : RECHECK_AFTER_DEPLOY_MS ≤ now - b.lastDeployAt
      · cases r with
        | ok code d => simp [checkBot, checkBotFirst, eraseBot, hf, hst, hw]
        | err => simp [checkBot, checkBotFirst, eraseBot, probeUp, hst, hw]
      · cases r with
        | ok code d => simp [checkBot, checkBotFirst, eraseBot, hf, hst, hw]
        | err => simp [checkBot, checkBotFirst, eraseBot, probeUp, hst, hw]
    · cases r with
      | ok code d => simp [checkBot, checkBotFirst, eraseBot, hf, hst]
      | err => simp [checkBot, checkBotFirst, eraseBot, probeUp, hst]
    · cases r with
      | ok code d => simp [checkBot, checkBotFirst, eraseBot, hf, hst, hfc]
      | err => simp [checkBot, checkBotFirst, eraseBot, probeUp, hst, hfc]

/-- C10 witness: agreement at a concrete deploying record under a concrete
failing probe. -/
theorem checkBot_versions_agree_witness :
    (checkBotFirst (eraseBot botDepW) 5 ProbeResult.err).1.status
      = (checkBot botDepW 5 ProbeResult.err).1.status ∧
    (checkBotFirst (eraseBot botDepW) 5 ProbeResult.err).1.lastDeployAt
      = (checkBot botDepW 5 ProbeResult.err).1.lastDeployAt ∧
    (checkBotFirst (eraseBot botDepW) 5 ProbeResult.err).2
      = (checkBot botDepW 5 ProbeResult.err).2 :=
  checkBot_versions_agree botDepW 5 ProbeResult.err (Or.inr (Or.inl rfl))

/-- C5 counterexample: starting from an idle state, a sweep whose report
publish throws terminates with the checking flag still set, and the next
sweep invocation is then a no-op, against the claim that the flag is
cleared on every exit path. -/
theorem sweep_guard_cex :
    (checkAll stIdleW [] 1 ntThrowW 5).1.checking = true ∧
    checkAll (checkAll stIdleW [] 1 ntThrowW 5).1 [] 2 ntOkW 5
      = ((checkAll stIdleW [] 1 ntThrowW 5).1, 0, 0, []) := by
  decide

/-- C5 amended: the sweep sets the flag at start and clears it at the end
of a sweep whose report publish returns normally; when the publish throws,
the flag remains set after the sweep. -/
theorem sweep_guard_release (st : MonState) (probes : List ProbeResult)
    (now : Nat) (nt : Notifier) (dur : Nat) (h : st.checking = false) :
    (checkAll st probes now nt dur).1.checking = publishThrows st.pub nt := by
  unfold checkAll publishThrows
  rw [h]
  simp only [Bool.false_eq_true, if_false]
  rcases hu : updateStatus st.pub nt with ⟨e, s, ed⟩
  cases e <;> simp

/-- C5 witness: at a concrete idle state with a publish that returns
normally, the flag ends cleared. -/
theorem sweep_guard_release_witness :
    (checkAll stIdleW [] 1 ntOkW 5).1.checking = publishThrows stIdleW.pub ntOkW :=
  sweep_guard_release stIdleW [] 1 ntOkW 5 rfl

/-- C6: when the checking flag is already set, a sweep invocation leaves
the whole state unchanged and issues no send, no edit and no remediation. -/
theorem sweep_reentrancy_noop (st : MonState) (probes : List ProbeResult)
    (now : Nat) (nt : Notifier) (dur : Nat) (h : st.checking = true) :
    checkAll st probes now nt dur = (st, 0, 0, []) := by
  unfold checkAll
  rw [h]
  simp

/-- C6 witness: the in-progress state at concrete inputs. -/
theorem sweep_reentrancy_noop_witness :
    checkAll { stIdleW with checking := true } [ProbeResult.err] 3 ntOkW 7
      = ({ stIdleW with checking := true }, 0, 0, []) :=
  sweep_reentrancy_noop { stIdleW with checking := true }
    [ProbeResult.err] 3 ntOkW 7 rfl

/-- C7: with no published id, updateStatus creates the report and persists
the returned id; with an id and a successful edit it edits in place,
issuing no create and keeping the id; with an id and a failing edit it
falls back to one create and overwrites both the in-memory and the
persisted id. -/
theorem updateStatus_publish (ps : PubState) (nt : Notifier) (i j : String) :
    (ps.statusMessageId = none → nt.send1 = SendRes.okId i →
      updateStatus ps nt
        = (Except.ok { statusMessageId := some i, savedId := some i }, 1, 0)) ∧
    (ps.statusMessageId = some j → nt.edit1 = EditRes.ok →
      updateStatus ps nt = (Except.ok ps, 0, 1)) ∧
    (ps.statusMessageId = some j → nt.edit1 = EditRes.throws →
      nt.send1 = SendRes.okId i →
      updateStatus ps nt
        = (Except.ok { statusMessageId := some i, savedId := some i }, 1, 1)) := by
  refine ⟨?_, ?_, ?_⟩
  · intro hid hs
    simp [updateStatus, hid, hs]
  · intro hid he
    simp [updateStatus, hid, he]
  · intro hid he hs
    simp [updateStatus, hid, he, hs]

/-- C7 witness: the first-publish case at a concrete empty report state. -/
theorem updateStatus_publish_witness :
    updateStatus pubNoneW ntOkW
      = (Except.ok { statusMessageId := some "m1", savedId := some "m1" }, 1, 0) :=
  (updateStatus_publish pubNoneW ntOkW "m1" "zz").1 rfl rfl

lemma BOTS_eq_filterMap (env : List (String × String)) :
    BOTS env = env.filterMap (fun kv =>
      if isBotKey kv.1 then parseBotEnv env kv.1 else none) := by
  unfold BOTS
  suffices h : ∀ (l : List (String × String)) (acc : List Bot),
      l.foldl
        (fun acc kv =>
          if isBotKey kv.1 then
            match parseBotEnv env kv.1 with
            | some b => acc ++ [b]
            | none => acc
          else acc) acc
      = acc ++ l.filterMap (fun kv =>
          if isBotKey kv.1 then parseBotEnv env kv.1 else none) by
    simpa using h env []
  intro l
  induction l with
  | nil => intro acc; simp
  | cons kv rest ih =>
    intro acc
    simp only [List.foldl_cons, List.filterMap_cons]
    by_cases hk : isBotKey kv.1
    · cases hp : parseBotEnv env kv.1 with
      | some b => simp [hk, hp, ih]
      | none => simp [hk, hp, ih]
    · simp [hk, ih]

lemma find_self (env : List (String × String))
    (hnd : (env.map Prod.fst).Nodup) (kv : String × String) (h : kv ∈ env) :
    env.find? (fun x => x.1 == kv.1) = some kv := by
  induction env with
  | nil => simp at h
  | cons hd tl ih =>
    rcases List.mem_cons.mp h with he | ht
    · subst he
      exact List.find?_cons_of_pos tl (by simp)
    · have hnd1 : (hd.1 :: tl.map Prod.fst).Nodup := by simpa using hnd
      have hnd2 := List.nodup_cons.mp hnd1
      have hne : ¬ (hd.1 == kv.1) = true := by
        simp only [beq_iff_eq]
        intro he
        exact hnd2.1 (he ▸ List.mem_map_of_mem Prod.fst ht)
      rw [List.find?_cons_of_neg tl (by simpa using hne)]
      exact ih hnd2.2 ht

lemma parseBotEnv_self (env : List (String × String))
    (hnd : (env.map Prod.fst).Nodup) (kv : String × String) (h : kv ∈ env) :
    parseBotEnv env kv.1
      = (if kv.2 = "" then none
         else
           match matchBotValue kv.2 with
           | none => none
           | some uv => some (initBot kv.1 uv.1 uv.2)) := by
  unfold parseBotEnv lookupEnv
  rw [find_self env hnd kv h]

/-- C9 counterexample: an environment that enumerates bot2 before bot1,
both well formed, yields the roster in enumeration order bot2, bot1 and
not in ascending key order. -/
theorem BOTS_order_cex :
    (BOTS [("bot2", "\x7bhttp://a,http://b\x7d"),
           ("bot1", "\x7bhttp://c,http://d\x7d")]).map Bot.id
      = ["bot2", "bot1"] ∧
    (BOTS [("bot2", "\x7bhttp://a,http://b\x7d"),
           ("bot1", "\x7bhttp://c,http://d\x7d")]).map Bot.id
      ≠ ["bot1", "bot2"] := by
  decide

/-- C9 amended: for an environment with distinct keys, the roster is
exactly the records of the keys matching the bot pattern whose value is
nonempty and matches the URL-pair regex, each built from its own value, in
environment enumeration order. -/
theorem BOTS_roster (env : List (String × String))
    (hnd : (env.map Prod.fst).Nodup) :
    BOTS env = env.filterMap (fun kv =>
      if isBotKey kv.1 then
        if kv.2 = "" then none
        else
          match matchBotValue kv.2 with
          | none => none
          | some uv => some (initBot kv.1 uv.1 uv.2)
      else none) := by
  rw [BOTS_eq_filterMap]
  apply List.filterMap_congr
  intro kv hkv
  by_cases hk : isBotKey kv.1
  · simp only [hk, if_true]
    exact parseBotEnv_self env hnd kv hkv
  · simp [hk]

/-- C9 witness: the amended roster equation at a concrete two-entry
environment with one malformed entry in between. -/
theorem BOTS_roster_witness :
    BOTS [("bot1", "\x7bhttp://c,http://d\x7d"), ("bot2", "nope")]
      = [("bot1", "\x7bhttp://c,http://d\x7d"), ("bot2", "nope")].filterMap
        (fun kv =>
          if isBotKey kv.1 then
            if kv.2 = "" then none
            else
              match matchBotValue kv.2 with
              | none => none
              | some uv => some (initBot kv.1 uv.1 uv.2)
          else none) :=
  BOTS_roster [("bot1", "\x7bhttp://c,http://d\x7d"), ("bot2", "nope")]
    (by decide)

end BotDeploy
